import Mathlib

/-!
Verification development for the LogPose atlas worker (Python).
Shallow embedding of the helper heuristics (float classification, status
determination, battery estimation), the NetCDF-to-Parquet converter row
loop, the metadata aggregate reader, the Postgres upsert column handling,
the sync orchestrator manifest merge, and the pipeline work-set logic.
-/

namespace LogPose

/-- Test whether the first character list occurs at the head of the second. -/
def matchesAt : List Char → List Char → Bool
  | [], _ => true
  | _ :: _, [] => false
  | p :: ps, c :: cs => p == c && matchesAt ps cs

/-- Test whether the first character list occurs anywhere in the second. -/
def hasSubAux (pat : List Char) : List Char → Bool
  | [] => matchesAt pat []
  | c :: cs => matchesAt pat (c :: cs) || hasSubAux pat cs

/-- Model of the Python `in` operator on strings: substring membership. -/
def strContains (s pat : String) : Bool :=
  hasSubAux pat.data s.data

/-- Model of Python `str.upper()` (ASCII data in this repository). -/
def pyUpper (s : String) : String :=
  ⟨s.data.map Char.toUpper⟩

/-- Whitespace class used by Python `str.strip()` with no argument. -/
def isPySpace (c : Char) : Bool :=
  c == ' ' || c == '\t' || c == '\n' || c == '\r'

/-- Model of Python `str.strip()`: drop whitespace from both ends. -/
def pyStrip (s : String) : String :=
  ⟨((s.data.dropWhile isPySpace).reverse.dropWhile isPySpace).reverse⟩

/-- Model of the Python `int()` conversion applied to a float: truncation
toward zero (floor for nonnegative arguments, ceiling for negative ones). -/
def pyInt (q : ℚ) : ℤ :=
  if 0 ≤ q then ⌊q⌋ else ⌈q⌉

/-- Digit value of a character, when the character is a decimal digit. -/
def digitVal (c : Char) : Option ℕ :=
  if c.isDigit then some (c.toNat - 48) else none

/-- Accumulate decimal digits; any non-digit character fails the parse. -/
def parseDigitsAux : List Char → ℕ → Option ℕ
  | [], acc => some acc
  | c :: cs, acc =>
    match digitVal c with
    | none => none
    | some d => parseDigitsAux cs (acc * 10 + d)

/-- Parse a nonempty all-digit character list to a natural number. -/
def parseNatDigits : List Char → Option ℕ
  | [] => none
  | l => parseDigitsAux l 0

/-- Model of Python `int(str)` on a decimal string (an optional sign
followed by digits; the float identifiers in this repository are plain
digit strings). A malformed string models the `ValueError` raised by
`int()` and is returned as `none`. -/
def pyParseInt (s : String) : Option ℤ :=
  match s.data with
  | '-' :: rest => (parseNatDigits rest).map (fun n => -(n : ℤ))
  | '+' :: rest => (parseNatDigits rest).map (fun n => (n : ℤ))
  | l => (parseNatDigits l).map (fun n => (n : ℤ))

/-- Minimal model of a Python `datetime` value; only the calendar fields
read by the worker are kept. -/
structure PyDatetime where
  year : ℤ
  month : ℤ
  day : ℤ
deriving DecidableEq, Repr

/-- Embedding of `models/argo.py FloatMetadata` (fields in declaration
order of the Pydantic model). -/
structure FloatMetadataM where
  float_id : ℤ
  wmo_number : String
  status : Option String
  float_type : Option String
  data_centre : String
  project_name : Option String
  operating_institution : Option String
  pi_name : Option String
  platform_type : Option String
  platform_maker : Option String
  float_serial_no : Option String
  launch_date : Option PyDatetime
  launch_lat : Option ℚ
  launch_lon : Option ℚ
  start_mission_date : Option PyDatetime
  end_mission_date : Option PyDatetime
deriving DecidableEq, Repr

/-- Embedding of `models/argo.py FloatStatus`. `last_update` is an epoch
timestamp in seconds. -/
structure FloatStatusM where
  float_id : ℤ
  latitude : Option ℚ
  longitude : Option ℚ
  cycle_number : Option ℤ
  battery_percent : Option ℤ
  last_update : Option ℤ
  last_depth : Option ℚ
  last_temp : Option ℚ
  last_salinity : Option ℚ
deriving DecidableEq, Repr

/-! ## Helper.classify_float_type (utils/helper.py lines 15-114)

The classifier is embedded over its extracted inputs: the lower-cased
parameter names, the lower-cased sensor names, and the upper-cased
platform family string (the byte-decoding and stripping in the source
happens before the rule cascade starts). -/

/-- Model of Python `sum` over a list of booleans. -/
def boolSum (bs : List Bool) : ℕ :=
  (bs.filter id).length

/-- Embedding of the rule cascade of `Helper.classify_float_type` after
parameter and sensor extraction. -/
def classify_float_type (params sensors : List String) (platform_family : String) :
    String :=
  let has_oxygen := ["doxy", "doxy2", "doxy3"].any (fun p => params.contains p)
  let has_optode := sensors.any (fun s => strContains s "opto")
  let has_chla := params.contains "chla" ||
    strContains (String.intercalate " " params) "chlorophyll"
  let has_backscatter := ["bbp470", "bbp532", "bbp700", "beta_backscattering"].any
    (fun x => params.contains x)
  let has_nitrate := ["nitrate", "ntra", "ntrate"].any (fun x => params.contains x)
  let has_ph := params.contains "ph_in_situ_total"
  let has_cdom := params.contains "cdom"
  if platform_family ∈ ["DEEP", "DEEP ARVOR", "DEEP NINJA", "DEEP APEX"] then
    "deep"
  else if has_oxygen || has_optode then
    if has_chla || has_backscatter || has_nitrate || has_ph || has_cdom then
      "biogeochemical"
    else
      "oxygen"
  else if 2 ≤ boolSum [has_chla, has_backscatter, has_nitrate, has_ph] then
    "biogeochemical"
  else if has_chla || has_backscatter || has_nitrate || has_ph || has_cdom then
    "biogeochemical"
  else if 3 < params.length || sensors.any (fun s => strContains s "bio") then
    "biogeochemical"
  else
    "core"

/-! ## Helper.determine_float_status (utils/helper.py lines 116-157)

The embedding takes the decoded END_MISSION_DATE string (absent when the
variable is missing) and the day difference between now and the most
recent profile time (absent when no recent profile time is supplied). -/

/-- Embedding of `Helper.determine_float_status`. -/
def determine_float_status (endMissionRaw : Option String)
    (daysSinceLast : Option ℤ) : String :=
  if (pyStrip (endMissionRaw.getD "") ≠ "") then "INACTIVE"
  else
    match daysSinceLast with
    | some days => if days < 45 then "ACTIVE"
        else if days < 540 then "INACTIVE"
        else "DEAD"
    | none => "UNKNOWN"

/-! ## Helper.estimate_battery_percent (utils/helper.py lines 159-239) -/

/-- Model of `platform_type.upper().strip()`. -/
def pyPlatform (s : String) : String :=
  pyStrip (pyUpper s)

/-- Embedding of the chemistry detection block: an APEX float launched in
2010 or earlier (nonzero launch year) is assumed alkaline, everything
else lithium. -/
def detect_chemistry (platform : String) (metadata : Option FloatMetadataM) :
    String :=
  match metadata with
  | none => "lithium"
  | some m =>
    match m.launch_date with
    | none => "lithium"
    | some d =>
      if platform = "APEX" ∧ d.year ≠ 0 ∧ d.year ≤ 2010 then "alkaline"
      else "lithium"

/-- Embedding of the nested `lithium_percent` piecewise curve. -/
def lithium_percent (v : ℚ) : ℤ :=
  if 14.0 ≤ v then min 100 (pyInt (90 + (v - 14.0) * 12))
  else if 13.0 ≤ v then pyInt (75 + (v - 13.0) * 15)
  else if 12.0 ≤ v then pyInt (55 + (v - 12.0) * 20)
  else if 11.6 ≤ v then pyInt (40 + (v - 11.6) * 50)
  else if 11.0 ≤ v then pyInt (15 + (v - 11.0) * 50)
  else if 10.8 ≤ v then pyInt (5 + (v - 10.8) * 50)
  else 0

/-- Embedding of the nested `deep_arvor_percent` (28V system halving). -/
def deep_arvor_percent (v : ℚ) : ℤ :=
  lithium_percent (v / 2)

/-- Embedding of `Helper.estimate_battery_percent`. -/
def estimate_battery_percent (platform_type : String) (cycle_number : ℤ)
    (current_voltage : Option ℚ) (metadata : Option FloatMetadataM) :
    Option ℤ :=
  let platform := pyPlatform platform_type
  let chemistry := detect_chemistry platform metadata
  match current_voltage with
  | some v =>
    if chemistry = "alkaline" then
      some (max 0 (min 100 (pyInt (100 * (v - 10.5) / 5.0))))
    else if strContains platform "DEEP ARVOR" then
      some (deep_arvor_percent v)
    else
      some (lithium_percent v)
  | none =>
    let typical : ℤ := if platform ∈ ["APEX", "NAVIS", "SOLO-II"] then 280 else 220
    if 0 < cycle_number then
      some (max 0 (min 100 (pyInt (100 * (1 - (cycle_number : ℚ) / (typical : ℚ))))))
    else
      none

/-! ## Properties of the lithium discharge curve -/

lemma pyInt_eq_floor (q : ℚ) (h : 0 ≤ q) : pyInt q = ⌊q⌋ := by
  simp [pyInt, h]

lemma lp_eq_top (v : ℚ) (h : (14.0:ℚ) ≤ v) :
    lithium_percent v = min 100 ⌊(90:ℚ) + (v - 14.0) * 12⌋ := by
  have h0 : (0:ℚ) ≤ 90 + (v - 14.0) * 12 := by linarith
  simp only [lithium_percent, if_pos h, pyInt_eq_floor _ h0]

lemma lp_eq_seg3 (v : ℚ) (h1 : (13.0:ℚ) ≤ v) (h2 : v < 14.0) :
    lithium_percent v = ⌊(75:ℚ) + (v - 13.0) * 15⌋ := by
  have h0 : (0:ℚ) ≤ 75 + (v - 13.0) * 15 := by linarith
  simp only [lithium_percent, if_neg (by linarith : ¬ (14.0:ℚ) ≤ v), if_pos h1,
    pyInt_eq_floor _ h0]

lemma lp_eq_seg2 (v : ℚ) (h1 : (12.0:ℚ) ≤ v) (h2 : v < 13.0) :
    lithium_percent v = ⌊(55:ℚ) + (v - 12.0) * 20⌋ := by
  have h0 : (0:ℚ) ≤ 55 + (v - 12.0) * 20 := by linarith
  simp only [lithium_percent, if_neg (by linarith : ¬ (14.0:ℚ) ≤ v),
    if_neg (by linarith : ¬ (13.0:ℚ) ≤ v), if_pos h1, pyInt_eq_floor _ h0]

lemma lp_eq_seg1 (v : ℚ) (h1 : (11.6:ℚ) ≤ v) (h2 : v < 12.0) :
    lithium_percent v = ⌊(40:ℚ) + (v - 11.6) * 50⌋ := by
  have h0 : (0:ℚ) ≤ 40 + (v - 11.6) * 50 := by linarith
  simp only [lithium_percent, if_neg (by linarith : ¬ (14.0:ℚ) ≤ v),
    if_neg (by linarith : ¬ (13.0:ℚ) ≤ v), if_neg (by linarith : ¬ (12.0:ℚ) ≤ v),
    if_pos h1, pyInt_eq_floor _ h0]

lemma lp_eq_seg0 (v : ℚ) (h1 : (11.0:ℚ) ≤ v) (h2 : v < 11.6) :
    lithium_percent v = ⌊(15:ℚ) + (v - 11.0) * 50⌋ := by
  have h0 : (0:ℚ) ≤ 15 + (v - 11.0) * 50 := by linarith
  simp only [lithium_percent, if_neg (by linarith : ¬ (14.0:ℚ) ≤ v),
    if_neg (by linarith : ¬ (13.0:ℚ) ≤ v), if_neg (by linarith : ¬ (12.0:ℚ) ≤ v),
    if_neg (by linarith : ¬ (11.6:ℚ) ≤ v), if_pos h1, pyInt_eq_floor _ h0]

lemma lp_eq_segm1 (v : ℚ) (h1 : (10.8:ℚ) ≤ v) (h2 : v < 11.0) :
    lithium_percent v = ⌊(5:ℚ) + (v - 10.8) * 50⌋ := by
  have h0 : (0:ℚ) ≤ 5 + (v - 10.8) * 50 := by linarith
  simp only [lithium_percent, if_neg (by linarith : ¬ (14.0:ℚ) ≤ v),
    if_neg (by linarith : ¬ (13.0:ℚ) ≤ v), if_neg (by linarith : ¬ (12.0:ℚ) ≤ v),
    if_neg (by linarith : ¬ (11.6:ℚ) ≤ v), if_neg (by linarith : ¬ (11.0:ℚ) ≤ v),
    if_pos h1, pyInt_eq_floor _ h0]

lemma lp_eq_bot (v : ℚ) (h : v < (10.8:ℚ)) : lithium_percent v = 0 := by
  simp only [lithium_percent, if_neg (by linarith : ¬ (14.0:ℚ) ≤ v),
    if_neg (by linarith : ¬ (13.0:ℚ) ≤ v), if_neg (by linarith : ¬ (12.0:ℚ) ≤ v),
    if_neg (by linarith : ¬ (11.6:ℚ) ≤ v), if_neg (by linarith : ¬ (11.0:ℚ) ≤ v),
    if_neg (by linarith : ¬ (10.8:ℚ) ≤ v)]

lemma lp_range_top (v : ℚ) (h : (14.0:ℚ) ≤ v) :
    90 ≤ lithium_percent v ∧ lithium_percent v ≤ 100 := by
  rw [lp_eq_top v h]
  refine ⟨le_min (by norm_num) (Int.le_floor.mpr (by push_cast; linarith)),
    min_le_left _ _⟩

lemma lp_range_seg3 (v : ℚ) (h1 : (13.0:ℚ) ≤ v) (h2 : v < 14.0) :
    75 ≤ lithium_percent v ∧ lithium_percent v < 90 := by
  rw [lp_eq_seg3 v h1 h2]
  exact ⟨Int.le_floor.mpr (by push_cast; linarith),
    Int.floor_lt.mpr (by push_cast; linarith)⟩

lemma lp_range_seg2 (v : ℚ) (h1 : (12.0:ℚ) ≤ v) (h2 : v < 13.0) :
    55 ≤ lithium_percent v ∧ lithium_percent v < 75 := by
  rw [lp_eq_seg2 v h1 h2]
  exact ⟨Int.le_floor.mpr (by push_cast; linarith),
    Int.floor_lt.mpr (by push_cast; linarith)⟩

lemma lp_range_seg1 (v : ℚ) (h1 : (11.6:ℚ) ≤ v) (h2 : v < 12.0) :
    40 ≤ lithium_percent v ∧ lithium_percent v < 60 := by
  rw [lp_eq_seg1 v h1 h2]
  exact ⟨Int.le_floor.mpr (by push_cast; linarith),
    Int.floor_lt.mpr (by push_cast; linarith)⟩

lemma lp_range_seg0 (v : ℚ) (h1 : (11.0:ℚ) ≤ v) (h2 : v < 11.6) :
    15 ≤ lithium_percent v ∧ lithium_percent v < 45 := by
  rw [lp_eq_seg0 v h1 h2]
  exact ⟨Int.le_floor.mpr (by push_cast; linarith),
    Int.floor_lt.mpr (by push_cast; linarith)⟩

lemma lp_range_segm1 (v : ℚ) (h1 : (10.8:ℚ) ≤ v) (h2 : v < 11.0) :
    5 ≤ lithium_percent v ∧ lithium_percent v < 15 := by
  rw [lp_eq_segm1 v h1 h2]
  exact ⟨Int.le_floor.mpr (by push_cast; linarith),
    Int.floor_lt.mpr (by push_cast; linarith)⟩

lemma lp_bounds (v : ℚ) : 0 ≤ lithium_percent v ∧ lithium_percent v ≤ 100 := by
  rcases le_or_lt 14.0 v with h | h
  · have := lp_range_top v h; omega
  rcases le_or_lt 13.0 v with h1 | h1
  · have := lp_range_seg3 v h1 h; omega
  rcases le_or_lt 12.0 v with h2 | h2
  · have := lp_range_seg2 v h2 h1; omega
  rcases le_or_lt 11.6 v with h3 | h3
  · have := lp_range_seg1 v h3 h2; omega
  rcases le_or_lt 11.0 v with h4 | h4
  · have := lp_range_seg0 v h4 h3; omega
  rcases le_or_lt 10.8 v with h5 | h5
  · have := lp_range_segm1 v h5 h4; omega
  · rw [lp_eq_bot v h5]; omega

lemma lp_mono_high (v₁ v₂ : ℚ) (h1 : (12.0:ℚ) ≤ v₁) (h12 : v₁ ≤ v₂) :
    lithium_percent v₁ ≤ lithium_percent v₂ := by
  rcases le_or_lt 14.0 v₁ with h14₁ | h14₁
  · rw [lp_eq_top v₁ h14₁, lp_eq_top v₂ (by linarith)]
    exact min_le_min (le_refl _) (Int.floor_le_floor (by linarith))
  rcases le_or_lt 13.0 v₁ with h13₁ | h13₁
  · rcases le_or_lt 14.0 v₂ with h14₂ | h14₂
    · have hu := (lp_range_seg3 v₁ h13₁ h14₁).2
      have hl := (lp_range_top v₂ h14₂).1
      omega
    · rw [lp_eq_seg3 v₁ h13₁ h14₁, lp_eq_seg3 v₂ (by linarith) h14₂]
      exact Int.floor_le_floor (by linarith)
  · rcases le_or_lt 13.0 v₂ with h13₂ | h13₂
    · have hu := (lp_range_seg2 v₁ h1 h13₁).2
      have hl : 75 ≤ lithium_percent v₂ := by
        rcases le_or_lt 14.0 v₂ with h14₂ | h14₂
        · have := (lp_range_top v₂ h14₂).1; omega
        · exact (lp_range_seg3 v₂ h13₂ h14₂).1
      omega
    · rw [lp_eq_seg2 v₁ h1 h13₁, lp_eq_seg2 v₂ (by linarith) h13₂]
      exact Int.floor_le_floor (by linarith)

lemma lp_mono_mid (v₁ v₂ : ℚ) (h1 : (11.6:ℚ) ≤ v₁) (h12 : v₁ ≤ v₂)
    (h2 : v₂ < 12.0) : lithium_percent v₁ ≤ lithium_percent v₂ := by
  rw [lp_eq_seg1 v₁ h1 (by linarith), lp_eq_seg1 v₂ (by linarith) h2]
  exact Int.floor_le_floor (by linarith)

lemma lp_mono_low (v₁ v₂ : ℚ) (h12 : v₁ ≤ v₂) (h2 : v₂ < (11.6:ℚ)) :
    lithium_percent v₁ ≤ lithium_percent v₂ := by
  rcases lt_or_le v₁ 10.8 with h₁b | h₁b
  · rw [lp_eq_bot v₁ h₁b]
    exact (lp_bounds v₂).1
  rcases lt_or_le v₁ 11.0 with h₁m | h₁m
  · rcases lt_or_le v₂ 11.0 with h₂m | h₂m
    · rw [lp_eq_segm1 v₁ h₁b h₁m, lp_eq_segm1 v₂ (by linarith) h₂m]
      exact Int.floor_le_floor (by linarith)
    · have hu := (lp_range_segm1 v₁ h₁b h₁m).2
      have hl := (lp_range_seg0 v₂ h₂m h2).1
      omega
  · rw [lp_eq_seg0 v₁ h₁m (by linarith), lp_eq_seg0 v₂ (by linarith) h2]
    exact Int.floor_le_floor (by linarith)

lemma lp_at_135 : lithium_percent 13.5 = 82 := by
  rw [lp_eq_seg3 13.5 (by norm_num) (by norm_num)]
  norm_num

/-- Under lithium chemistry and a platform string that does not contain
the substring DEEP ARVOR, the voltage path of the estimator reduces to
the unified lithium curve. -/
lemma estimate_eq_lithium (p : String) (c : ℤ) (md : Option FloatMetadataM)
    (v : ℚ) (hchem : detect_chemistry (pyPlatform p) md = "lithium")
    (hdeep : strContains (pyPlatform p) "DEEP ARVOR" = false) :
    estimate_battery_percent p c (some v) md = some (lithium_percent v) := by
  simp [estimate_battery_percent, hchem, hdeep]

/-- C1 counterexample: for the lithium curve, the voltage 11.95 (inside
the 11.6-12.0 segment) maps to 57, while 12.0 maps to 55; hence the
result at 11.95 is not in the range [40,55) given by the spec, and the
estimator is not monotonically non-decreasing in voltage across the
12.0 V segment boundary. -/
theorem battery_estimate_counterexample :
    estimate_battery_percent "ARVOR" 50 (some 11.95) none = some 57 ∧
    estimate_battery_percent "ARVOR" 50 (some 12.0) none = some 55 ∧
    (11.95 : ℚ) < 12.0 ∧ ¬ ((57:ℤ) ≤ 55) ∧ ¬ ((57:ℤ) < 55) := by
  have e1 : estimate_battery_percent "ARVOR" 50 (some 11.95) none =
      some (lithium_percent 11.95) :=
    estimate_eq_lithium "ARVOR" 50 none 11.95 (by decide) (by decide)
  have e2 : estimate_battery_percent "ARVOR" 50 (some 12.0) none =
      some (lithium_percent 12.0) :=
    estimate_eq_lithium "ARVOR" 50 none 12.0 (by decide) (by decide)
  have v1 : lithium_percent 11.95 = 57 := by
    rw [lp_eq_seg1 11.95 (by norm_num) (by norm_num)]
    norm_num
  have v2 : lithium_percent 12.0 = 55 := by
    rw [lp_eq_seg2 12.0 (by norm_num) (by norm_num)]
    norm_num
  refine ⟨?_, ?_, by norm_num, by omega, by omega⟩
  · rw [e1, v1]
  · rw [e2, v2]

/-- C1 (amended): for lithium chemistry with no DEEP ARVOR voltage
normalization, the estimator applies the piecewise-linear lithium curve;
its result always lies in [0,100]; each segment has the range
14.0 V to [90,100], 13.0-14.0 V to [75,90), 12.0-13.0 V to [55,75),
11.6-12.0 V to [40,60), 11.0-11.6 V to [15,45), 10.8-11.0 V to [5,15),
below 10.8 V to 0 (the spec ranges [40,55) and [15,40) are corrected to
[40,60) and [15,45)); the curve is monotonically non-decreasing within
the regions v ≥ 12.0, 11.6 ≤ v < 12.0, and v < 11.6, though not across
the 11.6 V and 12.0 V boundaries; every branch rounds down to an
integer; and 13.5 V yields 82, inside [75,90). -/
theorem battery_estimate_amended (p : String) (c : ℤ)
    (md : Option FloatMetadataM)
    (hchem : detect_chemistry (pyPlatform p) md = "lithium")
    (hdeep : strContains (pyPlatform p) "DEEP ARVOR" = false) :
    (∀ v : ℚ, estimate_battery_percent p c (some v) md =
      some (lithium_percent v)) ∧
    (∀ v : ℚ, 0 ≤ lithium_percent v ∧ lithium_percent v ≤ 100) ∧
    (∀ v : ℚ, (14.0:ℚ) ≤ v → 90 ≤ lithium_percent v ∧ lithium_percent v ≤ 100) ∧
    (∀ v : ℚ, (13.0:ℚ) ≤ v → v < 14.0 →
      75 ≤ lithium_percent v ∧ lithium_percent v < 90) ∧
    (∀ v : ℚ, (12.0:ℚ) ≤ v → v < 13.0 →
      55 ≤ lithium_percent v ∧ lithium_percent v < 75) ∧
    (∀ v : ℚ, (11.6:ℚ) ≤ v → v < 12.0 →
      40 ≤ lithium_percent v ∧ lithium_percent v < 60) ∧
    (∀ v : ℚ, (11.0:ℚ) ≤ v → v < 11.6 →
      15 ≤ lithium_percent v ∧ lithium_percent v < 45) ∧
    (∀ v : ℚ, (10.8:ℚ) ≤ v → v < 11.0 →
      5 ≤ lithium_percent v ∧ lithium_percent v < 15) ∧
    (∀ v : ℚ, v < (10.8:ℚ) → lithium_percent v = 0) ∧
    (∀ v₁ v₂ : ℚ, (12.0:ℚ) ≤ v₁ → v₁ ≤ v₂ →
      lithium_percent v₁ ≤ lithium_percent v₂) ∧
    (∀ v₁ v₂ : ℚ, (11.6:ℚ) ≤ v₁ → v₁ ≤ v₂ → v₂ < 12.0 →
      lithium_percent v₁ ≤ lithium_percent v₂) ∧
    (∀ v₁ v₂ : ℚ, v₁ ≤ v₂ → v₂ < (11.6:ℚ) →
      lithium_percent v₁ ≤ lithium_percent v₂) ∧
    lithium_percent 13.5 = 82 :=
  ⟨fun v => estimate_eq_lithium p c md v hchem hdeep,
    lp_bounds, lp_range_top, lp_range_seg3, lp_range_seg2, lp_range_seg1,
    lp_range_seg0, lp_range_segm1, lp_eq_bot, lp_mono_high, lp_mono_mid,
    lp_mono_low, lp_at_135⟩

/-- C1 witness: the amended theorem applied to the concrete call of the
spec example, platform ARVOR, cycle 50, 13.5 V, no metadata. -/
theorem battery_estimate_amended_witness :
    estimate_battery_percent "ARVOR" 50 (some 13.5) none = some 82 := by
  obtain ⟨h1, _, _, _, _, _, _, _, _, _, _, _, h135⟩ :=
    battery_estimate_amended "ARVOR" 50 none (by decide) (by decide)
  rw [h1 13.5, h135]

/-! ## Claims about the float-type classifier -/

/-- C2 counterexample: the platform family DEEP SOLO contains the
substring DEEP, yet the classifier returns core, not deep, because the
source tests exact membership in a four-string list. -/
theorem classify_deep_counterexample :
    strContains "DEEP SOLO" "DEEP" = true ∧
    classify_float_type [] [] "DEEP SOLO" = "core" ∧
    classify_float_type [] [] "DEEP SOLO" ≠ "deep" := by
  refine ⟨by decide, by decide, by decide⟩

/-- C2 (amended): the cascade returns deep exactly when the platform
family string is one of DEEP, DEEP ARVOR, DEEP NINJA, DEEP APEX (exact
string equality, not a substring test); all later rules return other
labels. -/
theorem classify_deep_amended (params sensors : List String)
    (platform_family : String) :
    classify_float_type params sensors platform_family = "deep" ↔
      platform_family ∈ ["DEEP", "DEEP ARVOR", "DEEP NINJA", "DEEP APEX"] := by
  unfold classify_float_type
  by_cases h : platform_family ∈ ["DEEP", "DEEP ARVOR", "DEEP NINJA", "DEEP APEX"]
  · simp [h]
  · simp only [h, if_false, iff_false]
    split
    · split <;> decide
    · split
      · decide
      · split
        · decide
        · split <;> decide

/-! ## Sync orchestrator manifest (workers/argo_sync/sync.py)

The manifest is the JSON object with the `downloaded` and `failed` lists.
The merge step models lines 206-220 of sync.py (identical code at lines
287-301 for the weekly update): successful identifiers are appended to
`downloaded` and removed from `failed` when present; failed identifiers
are appended to `failed` when not already present. -/

structure Manifest where
  downloaded : List String
  failed : List String
deriving DecidableEq, Repr

/-- Model of Python `list.remove`: drop the first occurrence. -/
def removeFirst : List String → String → List String
  | [], _ => []
  | a :: rest, x => if a = x then rest else a :: removeFirst rest x

/-- One iteration of the successful-floats loop: append to downloaded,
remove from failed when present. -/
def mergeStep (st : List String × List String) (fid : String) :
    List String × List String :=
  (st.1 ++ [fid], if fid ∈ st.2 then removeFirst st.2 fid else st.2)

/-- One iteration of the failed-floats loop: append when not present. -/
def addIfAbsent (fl : List String) (fid : String) : List String :=
  if fid ∈ fl then fl else fl ++ [fid]

/-- Embedding of the manifest-merge step of `ArgoSyncWorker.syncAll`. -/
def mergeManifest (m : Manifest) (successful failed_floats : List String) :
    Manifest :=
  let st := successful.foldl mergeStep (m.downloaded, m.failed)
  { downloaded := st.1, failed := failed_floats.foldl addIfAbsent st.2 }

/-- Embedding of `pending_floats = all_floats - already_downloaded`. -/
def pendingOf (allFloats : List String) (m : Manifest) : List String :=
  allFloats.filter (fun f => decide (f ∉ m.downloaded))

/-- The summary dict returned by `syncAll`. -/
structure SyncSummary where
  total : ℕ
  downloadedCount : ℕ
  newCount : ℕ
  failedCount : ℕ
deriving DecidableEq, Repr

/-- Embedding of `ArgoSyncWorker.syncAll` after the index download: the
pending set is computed, an empty pending set returns at once with the
manifest untouched, otherwise the pending floats are fetched (the fetch
outcome oracle `fetchOk` stands for the per-float downloads) and the
manifest is merged. The second component is the list of floats for which
per-float network fetches are performed. -/
def syncAllModel (allFloats : List String) (m : Manifest)
    (fetchOk : String → Bool) : Manifest × List String × SyncSummary :=
  let pending := pendingOf allFloats m
  if pending.isEmpty then
    (m, [], ⟨allFloats.length, m.downloaded.length, 0, 0⟩)
  else
    let successful := pending.filter fetchOk
    let failed_floats := pending.filter (fun f => !(fetchOk f))
    let m2 := mergeManifest m successful failed_floats
    (m2, pending,
      ⟨allFloats.length, m2.downloaded.length, successful.length,
        failed_floats.length⟩)

lemma removeFirst_of_not_mem (f : List String) (a : String) (h : a ∉ f) :
    removeFirst f a = f := by
  induction f with
  | nil => rfl
  | cons b rest ih =>
    have hba : b ≠ a := fun hb => h (hb ▸ List.mem_cons_self b rest)
    have hrest : a ∉ rest := fun hr => h (List.mem_cons_of_mem b hr)
    simp [removeFirst, hba, ih hrest]

lemma mem_removeFirst (f : List String) (hf : f.Nodup) (a x : String) :
    x ∈ removeFirst f a ↔ x ∈ f ∧ x ≠ a := by
  induction f with
  | nil => simp [removeFirst]
  | cons b rest ih =>
    obtain ⟨hb, hrest⟩ := List.nodup_cons.mp hf
    by_cases hba : b = a
    · subst hba
      simp only [removeFirst, if_pos rfl, List.mem_cons]
      constructor
      · intro hx
        exact ⟨Or.inr hx, fun hxb => hb (hxb ▸ hx)⟩
      · rintro ⟨hx | hx, hne⟩
        · exact absurd hx hne
        · exact hx
    · simp only [removeFirst, if_neg hba, List.mem_cons, ih hrest]
      constructor
      · rintro (hx | ⟨hx, hne⟩)
        · exact ⟨Or.inl hx, hx ▸ hba⟩
        · exact ⟨Or.inr hx, hne⟩
      · rintro ⟨hx | hx, hne⟩
        · exact Or.inl hx
        · exact Or.inr ⟨hx, hne⟩

lemma nodup_removeFirst (f : List String) (hf : f.Nodup) (a : String) :
    (removeFirst f a).Nodup := by
  induction f with
  | nil => exact hf
  | cons b rest ih =>
    obtain ⟨hb, hrest⟩ := List.nodup_cons.mp hf
    by_cases hba : b = a
    · simpa [removeFirst, hba] using hrest
    · rw [show removeFirst (b :: rest) a = b :: removeFirst rest a by
        simp [removeFirst, hba]]
      refine List.nodup_cons.mpr ⟨?_, ih hrest⟩
      intro hmem
      exact hb ((mem_removeFirst rest hrest a b).mp hmem).1

lemma foldl_mergeStep_fst (succ : List String) :
    ∀ d f : List String, (succ.foldl mergeStep (d, f)).1 = d ++ succ := by
  induction succ with
  | nil => intro d f; simp
  | cons a rest ih =>
    intro d f
    simp only [List.foldl_cons, mergeStep]
    rw [ih]
    simp

lemma foldl_mergeStep_snd (succ : List String) :
    ∀ d f : List String,
      (succ.foldl mergeStep (d, f)).2 = succ.foldl removeFirst f := by
  induction succ with
  | nil => intro d f; simp
  | cons a rest ih =>
    intro d f
    simp only [List.foldl_cons, mergeStep]
    rw [ih]
    by_cases h : a ∈ f
    · simp [h]
    · simp [h, removeFirst_of_not_mem f a h]

lemma nodup_foldl_removeFirst (succ : List String) :
    ∀ f : List String, f.Nodup → (succ.foldl removeFirst f).Nodup := by
  induction succ with
  | nil => intro f hf; exact hf
  | cons a rest ih =>
    intro f hf
    exact ih (removeFirst f a) (nodup_removeFirst f hf a)

lemma mem_foldl_removeFirst (succ : List String) :
    ∀ (f : List String), f.Nodup → ∀ x : String,
      (x ∈ succ.foldl removeFirst f ↔ x ∈ f ∧ x ∉ succ) := by
  induction succ with
  | nil => intro f _ x; simp
  | cons a rest ih =>
    intro f hf x
    simp only [List.foldl_cons]
    rw [ih (removeFirst f a) (nodup_removeFirst f hf a) x,
      mem_removeFirst f hf a x]
    simp only [List.mem_cons]
    tauto

lemma mem_foldl_addIfAbsent (new : List String) :
    ∀ (f : List String) (x : String),
      (x ∈ new.foldl addIfAbsent f ↔ x ∈ f ∨ x ∈ new) := by
  induction new with
  | nil => intro f x; simp
  | cons a rest ih =>
    intro f x
    simp only [List.foldl_cons]
    rw [ih]
    unfold addIfAbsent
    by_cases h : a ∈ f
    · simp only [if_pos h, List.mem_cons]
      constructor
      · rintro (hx | hx)
        · exact Or.inl hx
        · exact Or.inr (Or.inr hx)
      · rintro (hx | hx | hx)
        · exact Or.inl hx
        · exact Or.inl (hx ▸ h)
        · exact Or.inr hx
    · simp only [if_neg h, List.mem_append, List.mem_singleton, List.mem_cons]
      tauto

lemma nodup_foldl_addIfAbsent (new : List String) :
    ∀ f : List String, f.Nodup → (new.foldl addIfAbsent f).Nodup := by
  induction new with
  | nil => intro f hf; exact hf
  | cons a rest ih =>
    intro f hf
    refine ih (addIfAbsent f a) ?_
    unfold addIfAbsent
    by_cases h : a ∈ f
    · simpa [h] using hf
    · simp only [if_neg h]
      rw [List.nodup_append]
      refine ⟨hf, List.nodup_singleton a, ?_⟩
      intro x hx hxa
      rw [List.mem_singleton] at hxa
      exact h (hxa ▸ hx)

lemma mergeManifest_downloaded (m : Manifest) (succ fl : List String) :
    (mergeManifest m succ fl).downloaded = m.downloaded ++ succ := by
  simp [mergeManifest, foldl_mergeStep_fst]

lemma mem_mergeManifest_failed (m : Manifest) (succ fl : List String)
    (hnf : m.failed.Nodup) (x : String) :
    x ∈ (mergeManifest m succ fl).failed ↔
      (x ∈ m.failed ∧ x ∉ succ) ∨ x ∈ fl := by
  simp only [mergeManifest]
  rw [mem_foldl_addIfAbsent, foldl_mergeStep_snd,
    mem_foldl_removeFirst succ m.failed hnf x]

lemma nodup_mergeManifest_failed (m : Manifest) (succ fl : List String)
    (hnf : m.failed.Nodup) : (mergeManifest m succ fl).failed.Nodup := by
  simp only [mergeManifest]
  rw [foldl_mergeStep_snd]
  exact nodup_foldl_addIfAbsent fl _ (nodup_foldl_removeFirst succ m.failed hnf)

/-- C7: if the starting downloaded and failed sets are disjoint and the
fetch results partition the pending set, then after the merge the two
manifest sets are disjoint, every pending identifier lands in exactly
one of them, and a successfully fetched identifier that was previously
in failed is no longer in failed. -/
theorem manifest_merge_partition (m : Manifest)
    (pending succ fl : List String)
    (hdisj : ∀ x ∈ m.downloaded, x ∉ m.failed)
    (hnf : m.failed.Nodup)
    (hsp : ∀ x ∈ succ, x ∈ pending)
    (hfp : ∀ x ∈ fl, x ∈ pending)
    (hcov : ∀ x ∈ pending, x ∈ succ ∨ x ∈ fl)
    (hsf : ∀ x ∈ succ, x ∉ fl)
    (hpd : ∀ x ∈ pending, x ∉ m.downloaded) :
    (∀ x ∈ (mergeManifest m succ fl).downloaded,
        x ∉ (mergeManifest m succ fl).failed) ∧
    (∀ x ∈ pending,
        (x ∈ (mergeManifest m succ fl).downloaded ∧
          x ∉ (mergeManifest m succ fl).failed) ∨
        (x ∈ (mergeManifest m succ fl).failed ∧
          x ∉ (mergeManifest m succ fl).downloaded)) ∧
    (∀ x ∈ succ, x ∈ m.failed → x ∉ (mergeManifest m succ fl).failed) := by
  have hdl : ∀ x : String,
      x ∈ (mergeManifest m succ fl).downloaded ↔
        x ∈ m.downloaded ∨ x ∈ succ := by
    intro x
    rw [mergeManifest_downloaded]
    simp [List.mem_append]
  have hfl := mem_mergeManifest_failed m succ fl hnf
  have hnotfail : ∀ x ∈ (mergeManifest m succ fl).downloaded,
      x ∉ (mergeManifest m succ fl).failed := by
    intro x hx hxf
    rw [hdl] at hx
    rw [hfl] at hxf
    rcases hx with hx | hx
    · rcases hxf with ⟨hf, _⟩ | hf
      · exact hdisj x hx hf
      · exact hpd x (hfp x hf) hx
    · rcases hxf with ⟨_, hns⟩ | hf
      · exact hns hx
      · exact hsf x hx hf
  refine ⟨hnotfail, ?_, ?_⟩
  · intro x hx
    rcases hcov x hx with hs | hf
    · have hd : x ∈ (mergeManifest m succ fl).downloaded :=
        (hdl x).mpr (Or.inr hs)
      exact Or.inl ⟨hd, hnotfail x hd⟩
    · by_cases hs : x ∈ succ
      · have hd : x ∈ (mergeManifest m succ fl).downloaded :=
          (hdl x).mpr (Or.inr hs)
        exact Or.inl ⟨hd, hnotfail x hd⟩
      · have hfm : x ∈ (mergeManifest m succ fl).failed :=
          (hfl x).mpr (Or.inr hf)
        exact Or.inr ⟨hfm, fun hd => hnotfail x hd hfm⟩
  · intro x hs _ hxf
    rcases (hfl x).mp hxf with ⟨_, hns⟩ | hf
    · exact hns hs
    · exact hsf x hs hf

/-- C7 witness: a concrete merge in which float 1002 was previously
failed, is pending and fetches successfully, while float 1004 fails. -/
theorem manifest_merge_partition_witness :
    (mergeManifest ⟨["1001"], ["1002", "1003"]⟩ ["1002"] ["1004"]).downloaded =
      ["1001", "1002"] ∧
    "1002" ∉ (mergeManifest ⟨["1001"], ["1002", "1003"]⟩ ["1002"] ["1004"]).failed := by
  have h := manifest_merge_partition ⟨["1001"], ["1002", "1003"]⟩
    ["1002", "1004"] ["1002"] ["1004"] (by decide) (by decide) (by decide)
    (by decide) (by decide) (by decide) (by decide)
  exact ⟨by decide, h.2.2 "1002" (by decide) (by decide)⟩

/-- C8: re-running the sync against an unchanged manifest performs no
per-float fetch for a float already in downloaded, creates no duplicate
manifest entries, returns immediately with the manifest untouched when
the pending set is empty, and after a fully successful run the pending
set of a re-run is empty. -/
theorem sync_idempotence (allFloats : List String) (m : Manifest)
    (fetchOk : String → Bool) (hall : allFloats.Nodup)
    (hnd : m.downloaded.Nodup) (hnf : m.failed.Nodup) :
    (∀ x ∈ (syncAllModel allFloats m fetchOk).2.1, x ∉ m.downloaded) ∧
    (pendingOf allFloats m = [] →
      (syncAllModel allFloats m fetchOk).1 = m ∧
      (syncAllModel allFloats m fetchOk).2.1 = []) ∧
    ((syncAllModel allFloats m fetchOk).1.downloaded.Nodup ∧
      (syncAllModel allFloats m fetchOk).1.failed.Nodup) ∧
    ((∀ x ∈ pendingOf allFloats m, fetchOk x = true) →
      pendingOf allFloats (syncAllModel allFloats m fetchOk).1 = []) := by
  by_cases hp : (pendingOf allFloats m).isEmpty = true
  · have hpe : pendingOf allFloats m = [] := List.isEmpty_iff.mp hp
    have hmodel : syncAllModel allFloats m fetchOk =
        (m, [], ⟨allFloats.length, m.downloaded.length, 0, 0⟩) := by
      simp only [syncAllModel, if_pos hp]
    rw [hmodel]
    exact ⟨by simp, fun _ => ⟨rfl, rfl⟩, ⟨hnd, hnf⟩, fun _ => hpe⟩
  · have hmem : ∀ x ∈ pendingOf allFloats m, x ∉ m.downloaded := by
      intro x hx
      have := List.mem_filter.mp hx
      simpa using this.2
    have hmodel : syncAllModel allFloats m fetchOk =
        (mergeManifest m ((pendingOf allFloats m).filter fetchOk)
            ((pendingOf allFloats m).filter (fun f => !(fetchOk f))),
          pendingOf allFloats m,
          ⟨allFloats.length,
            (mergeManifest m ((pendingOf allFloats m).filter fetchOk)
              ((pendingOf allFloats m).filter
                (fun f => !(fetchOk f)))).downloaded.length,
            ((pendingOf allFloats m).filter fetchOk).length,
            ((pendingOf allFloats m).filter (fun f => !(fetchOk f))).length⟩) := by
      simp only [syncAllModel, if_neg hp]
    rw [hmodel]
    refine ⟨hmem, ?_, ?_, ?_⟩
    · intro hpe
      exact absurd (List.isEmpty_iff.mpr hpe) hp
    · constructor
      · rw [mergeManifest_downloaded]
        rw [List.nodup_append]
        refine ⟨hnd, ?_, ?_⟩
        · exact List.Nodup.filter _ (List.Nodup.filter _ hall)
        · intro a ha hb
          exact hmem a (List.mem_filter.mp hb).1 ha
      · exact nodup_mergeManifest_failed m _ _ hnf
    · intro hok
      rw [show pendingOf allFloats
          (mergeManifest m ((pendingOf allFloats m).filter fetchOk)
            ((pendingOf allFloats m).filter (fun f => !(fetchOk f))),
           pendingOf allFloats m,
           (⟨allFloats.length,
             (mergeManifest m ((pendingOf allFloats m).filter fetchOk)
               ((pendingOf allFloats m).filter
                 (fun f => !(fetchOk f)))).downloaded.length,
             ((pendingOf allFloats m).filter fetchOk).length,
             ((pendingOf allFloats m).filter
               (fun f => !(fetchOk f))).length⟩ : SyncSummary)).1 =
          pendingOf allFloats
            (mergeManifest m ((pendingOf allFloats m).filter fetchOk)
              ((pendingOf allFloats m).filter (fun f => !(fetchOk f)))) from rfl]
      unfold pendingOf
      rw [List.filter_eq_nil_iff]
      intro a ha
      rw [mergeManifest_downloaded]
      simp only [decide_eq_true_eq, not_not]
      by_cases hd : a ∈ m.downloaded
      · exact List.mem_append_left _ hd
      · have hpa : a ∈ pendingOf allFloats m := by
          unfold pendingOf
          exact List.mem_filter.mpr ⟨ha, by simpa using hd⟩
        exact List.mem_append_right _ (List.mem_filter.mpr ⟨hpa, hok a hpa⟩)

/-- C8 witness: one float already downloaded, one new float fetched
successfully; the re-run pending set is empty. -/
theorem sync_idempotence_witness :
    pendingOf ["1001", "1002"]
      (syncAllModel ["1001", "1002"] ⟨["1001"], []⟩ (fun _ => true)).1 = [] := by
  have h := sync_idempotence ["1001", "1002"] ⟨["1001"], []⟩ (fun _ => true)
    (by decide) (by decide) (by decide)
  exact h.2.2.2 (by decide)

/-! ## Per-float fetch (ArgoSyncWorker.sync, sync.py lines 69-116)

Each of the four per-float file downloads ends in one of four outcomes;
every non-success outcome is caught inside `_download_file` and mapped
to False, so a per-file failure never escapes the call. -/

inductive DownloadOutcome
  | success
  | notFound404
  | httpErrorOther
  | transportError
deriving DecidableEq, Repr

/-- Result of `_download_file`: true only for a successful download; 404
and any other error are caught and produce false. -/
def download_file_ok : DownloadOutcome → Bool
  | .success => true
  | .notFound404 => false
  | .httpErrorOther => false
  | .transportError => false

/-- Embedding of `ArgoSyncWorker.sync`: gather the four file results and
succeed iff at least one file downloaded. -/
def fetchFloatModel (o1 o2 o3 o4 : DownloadOutcome) : Bool :=
  let results := [download_file_ok o1, download_file_ok o2,
    download_file_ok o3, download_file_ok o4]
  decide (1 ≤ boolSum results)

/-- C9: the per-float sync returns true iff at least one of the four
file requests succeeds; in particular four 404 responses yield false
(and each per-file outcome is totally handled, never raised). -/
theorem fetch_float_success_iff (o1 o2 o3 o4 : DownloadOutcome) :
    (fetchFloatModel o1 o2 o3 o4 = true ↔
      (o1 = .success ∨ o2 = .success ∨ o3 = .success ∨ o4 = .success)) ∧
    fetchFloatModel .notFound404 .notFound404 .notFound404 .notFound404 =
      false := by
  refine ⟨?_, by decide⟩
  cases o1 <;> cases o2 <;> cases o3 <;> cases o4 <;> decide

/-! ## Pipeline loop (main.py) -/

/-- Outcome of the per-float location gate and upsert in the processing
loop of `sync` (main.py lines 181-228): a float lacking latitude or
longitude is skipped (counted as processed, no database write);
otherwise the upsert is attempted, and an upsert failure raises and is
counted as a processing failure. -/
structure StepResult where
  processedDelta : ℕ
  processFailedDelta : ℕ
  upsertAttempted : Bool
deriving DecidableEq, Repr

/-- Embedding of the per-float location check and upsert accounting. -/
def process_float_step (lat lon : Option ℚ) (uploadSuccess : Bool) :
    StepResult :=
  if lat.isNone || lon.isNone then ⟨1, 0, false⟩
  else if uploadSuccess then ⟨1, 0, true⟩
  else ⟨0, 1, true⟩

/-- C4 counterexample: a float with a latitude but no longitude is
skipped before the upsert (the code skips when either coordinate is
missing, not only when both are). -/
theorem location_skip_counterexample :
    (process_float_step (some 5) none true).upsertAttempted = false ∧
    (some (5:ℚ)).isSome = true ∧
    process_float_step (some 5) none true = ⟨1, 0, false⟩ := by
  refine ⟨rfl, rfl, rfl⟩

/-- C4 (amended): a float is skipped before the upsert (still counted
as processed, with no row written) exactly when latitude or longitude
is absent; only a float with both coordinates present reaches the
upsert. -/
theorem location_skip_amended (lat lon : Option ℚ) (ok : Bool) :
    process_float_step none none ok = ⟨1, 0, false⟩ ∧
    (process_float_step lat lon ok).upsertAttempted =
      (lat.isSome && lon.isSome) := by
  cases lat <;> cases lon <;> cases ok <;> simp [process_float_step]

/-- The three run modes of `sync` in main.py. -/
inductive RunMode
  | single (floatId : String)
  | syncAllMode
  | updateMode
deriving DecidableEq, Repr

/-- Embedding of the work-set computation of `sync` (main.py lines
66-119): batch modes process the whole downloaded list of the manifest
(re-)loaded after the download phase; single mode processes one id. -/
def float_ids_to_process (mode : RunMode) (manifest : Manifest) :
    List String :=
  match mode with
  | .single fid => [fid]
  | .syncAllMode => manifest.downloaded
  | .updateMode => manifest.downloaded

/-- C10: in both batch modes the processing work set is the entire
downloaded list of the manifest, and after the weekly merge the update
work set is the previous downloaded list extended with the newly
successful floats, so every float ever recorded as downloaded is
re-processed on each run. -/
theorem work_set_is_all_downloaded (m : Manifest) (succ fl : List String) :
    float_ids_to_process .syncAllMode m = m.downloaded ∧
    float_ids_to_process .updateMode m = m.downloaded ∧
    float_ids_to_process .updateMode (mergeManifest m succ fl) =
      m.downloaded ++ succ :=
  ⟨rfl, rfl, mergeManifest_downloaded m succ fl⟩

/-! ## Postgres upsert column handling (db/pg.py PgClient.batch_upload_data)

The upsert builds its column list from `model_dump(exclude_none=True)`,
so absent fields never appear in the INSERT columns nor in the
`ON CONFLICT DO UPDATE SET` list. The row semantics of the statement is
modelled by `applyConflictUpdate`: a column in the prepared data (other
than the identifier) takes the new value, every other column keeps its
stored value. -/

/-- SQL parameter values that appear in the prepared data. -/
inductive DbVal
  | vInt (n : ℤ)
  | vStr (s : String)
  | vRat (q : ℚ)
  | vDate (d : PyDatetime)
  | vTime (t : ℤ)
deriving DecidableEq, Repr

/-- Column order of the FloatMetadata Pydantic model (dict order of
`model_dump`). -/
def metaColumns : List String :=
  ["float_id", "wmo_number", "status", "float_type", "data_centre",
    "project_name", "operating_institution", "pi_name", "platform_type",
    "platform_maker", "float_serial_no", "launch_date", "launch_lat",
    "launch_lon", "start_mission_date", "end_mission_date"]

/-- Value of one metadata column; `none` models a field that is `None`
and hence dropped by `exclude_none=True`. -/
def metaValue (m : FloatMetadataM) (c : String) : Option DbVal :=
  if c = "float_id" then some (.vInt m.float_id)
  else if c = "wmo_number" then some (.vStr m.wmo_number)
  else if c = "status" then m.status.map .vStr
  else if c = "float_type" then m.float_type.map .vStr
  else if c = "data_centre" then some (.vStr m.data_centre)
  else if c = "project_name" then m.project_name.map .vStr
  else if c = "operating_institution" then m.operating_institution.map .vStr
  else if c = "pi_name" then m.pi_name.map .vStr
  else if c = "platform_type" then m.platform_type.map .vStr
  else if c = "platform_maker" then m.platform_maker.map .vStr
  else if c = "float_serial_no" then m.float_serial_no.map .vStr
  else if c = "launch_date" then m.launch_date.map .vDate
  else if c = "launch_lat" then m.launch_lat.map .vRat
  else if c = "launch_lon" then m.launch_lon.map .vRat
  else if c = "start_mission_date" then m.start_mission_date.map .vDate
  else if c = "end_mission_date" then m.end_mission_date.map .vDate
  else none

/-- Model of `metadata.model_dump(exclude_none=True)`: the non-absent
fields in model order. -/
def metadataDump (m : FloatMetadataM) : List (String × DbVal) :=
  metaColumns.filterMap (fun c => (metaValue m c).map (fun v => (c, v)))

/-- Model of the prepared metadata dict after
`metadata_data["updated_at"] = datetime.now(UTC)`. -/
def metaUploadData (m : FloatMetadataM) (now : ℤ) : List (String × DbVal) :=
  metadataDump m ++ [("updated_at", .vTime now)]

/-- Column order of the FloatStatus Pydantic model. -/
def statusColumns : List String :=
  ["float_id", "latitude", "longitude", "cycle_number", "battery_percent",
    "last_update", "last_depth", "last_temp", "last_salinity"]

/-- Value of one status column. -/
def statusValue (s : FloatStatusM) (c : String) : Option DbVal :=
  if c = "float_id" then some (.vInt s.float_id)
  else if c = "latitude" then s.latitude.map .vRat
  else if c = "longitude" then s.longitude.map .vRat
  else if c = "cycle_number" then s.cycle_number.map .vInt
  else if c = "battery_percent" then s.battery_percent.map .vInt
  else if c = "last_update" then s.last_update.map .vTime
  else if c = "last_depth" then s.last_depth.map .vRat
  else if c = "last_temp" then s.last_temp.map .vRat
  else if c = "last_salinity" then s.last_salinity.map .vRat
  else none

/-- Model of `status.model_dump(exclude_none=True)`. -/
def statusDump (s : FloatStatusM) : List (String × DbVal) :=
  statusColumns.filterMap (fun c => (statusValue s c).map (fun v => (c, v)))

/-- Textual form of an optional coordinate inside the EWKT point (the
Python f-string renders a missing value as the text None). -/
def coordStr : Option ℚ → String
  | none => "None"
  | some q => toString q.num ++ "/" ++ toString q.den

/-- Model of the `SRID=4326;POINT(lon lat)` string. -/
def point_wkt (lon lat : Option ℚ) : String :=
  "SRID=4326;POINT(" ++ coordStr lon ++ " " ++ coordStr lat ++ ")"

/-- Model of the prepared status dict: dump, pop latitude and longitude,
add location, add updated_at. -/
def statusUploadData (s : FloatStatusM) (now : ℤ) : List (String × DbVal) :=
  ((statusDump s).filter
      (fun p => !(p.1 = "latitude" ∨ p.1 = "longitude" : Bool))) ++
    [("location", .vStr (point_wkt s.longitude s.latitude)),
      ("updated_at", .vTime now)]

/-- Row semantics of `INSERT ... ON CONFLICT (float_id) DO UPDATE SET
col = EXCLUDED.col` for every prepared column except the identifier: a
stored row (a map from column name to stored value) is updated with the
prepared data. -/
def applyConflictUpdate (old : String → Option DbVal)
    (data : List (String × DbVal)) : String → Option DbVal :=
  fun c =>
    match data.lookup c with
    | some v => if c = "float_id" then old c else some v
    | none => old c

lemma lookup_filterMap_none (f : String → Option DbVal) (cols : List String)
    (c : String) (hc : f c = none) :
    (cols.filterMap (fun x => (f x).map (fun v => (x, v)))).lookup c = none := by
  induction cols with
  | nil => rfl
  | cons x rest ih =>
    simp only [List.filterMap_cons]
    cases hfx : f x with
    | none => exact ih
    | some v =>
      have hcx : (c == x) = false := by
        refine beq_eq_false_iff_ne.mpr (fun he => ?_)
        rw [he, hfx] at hc
        exact Option.noConfusion hc
      simp only [Option.map_some, List.lookup, hcx]
      exact ih

lemma lookup_append_of_none (l₁ l₂ : List (String × DbVal)) (c : String)
    (h : l₁.lookup c = none) : (l₁ ++ l₂).lookup c = l₂.lookup c := by
  induction l₁ with
  | nil => rfl
  | cons p rest ih =>
    obtain ⟨k, v⟩ := p
    by_cases hck : c = k
    · have ht : (c == k) = true := by simp [hck]
      simp only [List.lookup, ht] at h
      exact Option.noConfusion h
    · have hf : (c == k) = false := by simp [hck]
      simp only [List.lookup, hf] at h
      simp only [List.cons_append, List.lookup, hf]
      exact ih h

lemma lookup_filter_none (l : List (String × DbVal))
    (p : String × DbVal → Bool) (c : String) (h : l.lookup c = none) :
    (l.filter p).lookup c = none := by
  induction l with
  | nil => rfl
  | cons q rest ih =>
    obtain ⟨k, v⟩ := q
    by_cases hck : c = k
    · have ht : (c == k) = true := by simp [hck]
      simp only [List.lookup, ht] at h
      exact Option.noConfusion h
    · have hf : (c == k) = false := by simp [hck]
      simp only [List.lookup, hf] at h
      rw [List.filter_cons]
      cases hp : p (k, v) with
      | true =>
        simp only [hp, if_true]
        simp only [List.lookup, hf]
        exact ih h
      | false =>
        simp only [hp, Bool.false_eq_true, if_false]
        exact ih h

/-- C5 counterexample: with a new metadata record whose project_name is
absent, the upsert leaves the previously stored project_name in place,
contradicting the claim that absent columns must not retain their
previous stored values. -/
theorem upsert_overwrite_counterexample :
    metaValue
      ⟨2902224, "2902224", some "ACTIVE", some "core", "IN", none, none,
        none, some "ARVOR", none, none, none, none, none, none, none⟩
      "project_name" = none ∧
    applyConflictUpdate
      (fun c => if c = "project_name" then some (.vStr "Argo India") else none)
      (metaUploadData
        ⟨2902224, "2902224", some "ACTIVE", some "core", "IN", none, none,
          none, some "ARVOR", none, none, none, none, none, none, none⟩ 0)
      "project_name" = some (.vStr "Argo India") := by
  exact ⟨rfl, rfl⟩

/-- C5 (amended): on conflict, every column present in the prepared data
(the non-absent fields plus updated_at, and for the status record the
location point) except the identifier is overwritten with its prepared
value; a column whose new value is absent is omitted from the statement
entirely and therefore retains its previously stored value (shown here
for the representative optional columns project_name and last_temp). -/
theorem upsert_overwrite_amended (m : FloatMetadataM) (s : FloatStatusM)
    (oldMeta oldStatus : String → Option DbVal) (now : ℤ) (c : String) :
    (c ≠ "float_id" → ∀ v, (metaUploadData m now).lookup c = some v →
      applyConflictUpdate oldMeta (metaUploadData m now) c = some v) ∧
    ((metaUploadData m now).lookup c = none →
      applyConflictUpdate oldMeta (metaUploadData m now) c = oldMeta c) ∧
    (m.project_name = none →
      applyConflictUpdate oldMeta (metaUploadData m now) "project_name" =
        oldMeta "project_name") ∧
    (s.last_temp = none →
      applyConflictUpdate oldStatus (statusUploadData s now) "last_temp" =
        oldStatus "last_temp") := by
  refine ⟨?_, ?_, ?_, ?_⟩
  · intro hc v hv
    unfold applyConflictUpdate
    rw [hv]
    exact if_neg hc
  · intro hnone
    unfold applyConflictUpdate
    rw [hnone]
  · intro hpn
    have hv : metaValue m "project_name" = none := by
      simp [metaValue, hpn]
    have h1 : (metadataDump m).lookup "project_name" = none :=
      lookup_filterMap_none (metaValue m) metaColumns "project_name" hv
    have h2 : (metaUploadData m now).lookup "project_name" = none := by
      unfold metaUploadData
      rw [lookup_append_of_none _ _ _ h1]
      rfl
    unfold applyConflictUpdate
    rw [h2]
  · intro hlt
    have hv : statusValue s "last_temp" = none := by
      simp [statusValue, hlt]
    have h1 : (statusDump s).lookup "last_temp" = none :=
      lookup_filterMap_none (statusValue s) statusColumns "last_temp" hv
    have h2 : (statusUploadData s now).lookup "last_temp" = none := by
      unfold statusUploadData
      rw [lookup_append_of_none _ _ _ (lookup_filter_none _ _ _ h1)]
      rfl
    unfold applyConflictUpdate
    rw [h2]

/-- C5 witness: the amended theorem applied to a concrete metadata
record with an absent project_name and a stored row holding an older
project_name, and a concrete status record with an absent last_temp. -/
theorem upsert_overwrite_amended_witness :
    applyConflictUpdate
      (fun c => if c = "project_name" then some (.vStr "OLD") else none)
      (metaUploadData
        ⟨2902224, "2902224", none, none, "IN", none, none, none, none,
          none, none, none, none, none, none, none⟩ 7)
      "project_name" = some (.vStr "OLD") ∧
    applyConflictUpdate
      (fun c => if c = "last_temp" then some (.vRat 15) else none)
      (statusUploadData
        ⟨2902224, some 10, some 20, some 320, none, none, none, none,
          none⟩ 7)
      "last_temp" = some (.vRat 15) := by
  have h1 := (upsert_overwrite_amended
    ⟨2902224, "2902224", none, none, "IN", none, none, none, none,
      none, none, none, none, none, none, none⟩
    ⟨2902224, some 10, some 20, some 320, none, none, none, none, none⟩
    (fun c => if c = "project_name" then some (.vStr "OLD") else none)
    (fun c => if c = "last_temp" then some (.vRat 15) else none)
    7 "project_name").2.2.1 rfl
  have h2 := (upsert_overwrite_amended
    ⟨2902224, "2902224", none, none, "IN", none, none, none, none,
      none, none, none, none, none, none, none⟩
    ⟨2902224, some 10, some 20, some 320, none, none, none, none, none⟩
    (fun c => if c = "project_name" then some (.vStr "OLD") else none)
    (fun c => if c = "last_temp" then some (.vRat 15) else none)
    7 "project_name").2.2.2 rfl
  exact ⟨by rw [h1]; rfl, by rw [h2]; rfl⟩

/-! ## Metadata aggregate reader (netcdf_aggregate_parser.py lines 49-95)

`parse_metadata_file` is embedded over the extraction results of the
individual NetCDF variables: each `extract_string`/`parse_date` outcome
is a field of `MetaFileFields` (`none` when the variable is missing or
blank), the classifier inputs are the extracted parameter and sensor
name lists and the platform family, and the status inputs are the raw
end-mission string and the day distance to the most recent profile. -/

structure MetaFileFields where
  platformNumber : Option String
  dataCentre : Option String
  projectName : Option String
  operatingInstitution : Option String
  piName : Option String
  platformType : Option String
  platformMaker : Option String
  floatSerialNo : Option String
  launchDate : Option PyDatetime
  startMissionDate : Option PyDatetime
  endMissionDate : Option PyDatetime
  launchLat : Option ℚ
  launchLon : Option ℚ
  classifyParams : List String
  classifySensors : List String
  platformFamily : String
  endMissionRaw : Option String
  daysSinceLast : Option ℤ
deriving DecidableEq, Repr

/-- Embedding of `parse_metadata_file`: the float id is
`int(extract_string(ds, "PLATFORM_NUMBER") or 0)`, so a missing or empty
platform number falls back to the placeholder 0 (and empty strings for
wmo_number and data_centre); only an unparseable nonempty platform
number raises and yields `none` through the enclosing try/except. -/
def parse_metadata_file (f : MetaFileFields) : Option FloatMetadataM :=
  let pnStr := f.platformNumber.getD ""
  let fid? : Option ℤ := if pnStr = "" then some 0 else pyParseInt pnStr
  match fid? with
  | none => none
  | some fid =>
    some
      { float_id := fid
        wmo_number := pnStr
        data_centre := f.dataCentre.getD ""
        project_name := f.projectName
        operating_institution := f.operatingInstitution
        pi_name := f.piName
        platform_type := f.platformType
        platform_maker := f.platformMaker
        float_serial_no := f.floatSerialNo
        launch_date := f.launchDate
        start_mission_date := f.startMissionDate
        end_mission_date := f.endMissionDate
        launch_lat := f.launchLat
        launch_lon := f.launchLon
        float_type := some (classify_float_type f.classifyParams
          f.classifySensors f.platformFamily)
        status := some (determine_float_status f.endMissionRaw
          f.daysSinceLast) }

/-- A meta file from which nothing can be extracted. -/
def emptyMetaFields : MetaFileFields :=
  ⟨none, none, none, none, none, none, none, none, none, none, none,
    none, none, [], [], "", none, none⟩

/-- C6 counterexample: when the platform number and data centre cannot
be read, the call does not fail; it returns a metadata record with the
placeholder values float_id = 0, wmo_number and data_centre empty. -/
theorem parse_metadata_required_counterexample :
    parse_metadata_file emptyMetaFields ≠ none ∧
    (parse_metadata_file emptyMetaFields).map
      (fun m => (m.float_id, m.wmo_number, m.data_centre)) =
      some (0, "", "") := by
  exact ⟨by decide, by decide⟩

/-- C6 (amended): parse_metadata_file returns absent only when a read
raises inside the enclosing try (for example a nonempty platform-number
string that is not a number); a meta file whose platform number or data
centre is merely missing yields a record with the placeholder values
float_id = 0, wmo_number = empty, data_centre = empty rather than an
extraction failure. -/
theorem parse_metadata_required_amended (f : MetaFileFields) :
    (f.platformNumber = none →
      (parse_metadata_file f).map
        (fun m => (m.float_id, m.wmo_number, m.data_centre)) =
        some (0, "", f.dataCentre.getD "")) ∧
    (∀ s, f.platformNumber = some s → s ≠ "" → pyParseInt s = none →
      parse_metadata_file f = none) := by
  constructor
  · intro hpn
    simp [parse_metadata_file, hpn]
  · intro s hs hne hparse
    simp [parse_metadata_file, hs, hne, hparse]

/-- C6 witness: the amended theorem applied to the all-missing meta file
and to a meta file with the unparseable platform number ABC. -/
theorem parse_metadata_required_amended_witness :
    (parse_metadata_file emptyMetaFields).map
      (fun m => (m.float_id, m.wmo_number, m.data_centre)) =
      some (0, "", "") ∧
    parse_metadata_file
      ⟨some "ABC", some "IN", none, none, none, none, none, none, none,
        none, none, none, none, [], [], "", none, none⟩ = none := by
  constructor
  · exact (parse_metadata_required_amended emptyMetaFields).1 rfl
  · exact (parse_metadata_required_amended
      ⟨some "ABC", some "IN", none, none, none, none, none, none, none,
        none, none, none, none, [], [], "", none, none⟩).2
      "ABC" rfl (by decide) (by decide)

/-! ## Parquet converter (workers/netcdf_processor/converter.py)

The profile dataset is embedded after the xarray decode step: a cell of
a measurement array is `none` when the stored value is NaN (including
fill values such as 99999 that the dataset layer decodes to NaN), a 2D
array is `none` altogether when the variable is missing or does not
have shape (N_PROF, N_LEVELS) (`get_2d_array`), and the five required
arrays are `none` when the variable is missing, which raises KeyError
inside the enclosing try and makes the conversion return `none`. -/

/-- Gregorian year and month of a Unix epoch timestamp in seconds
(model of `datetime.fromtimestamp(ts, tz=UTC).year/.month`). -/
def civilYearMonth (secs : ℤ) : ℤ × ℤ :=
  let days := secs.ediv 86400
  let z := days + 719468
  let era := z.ediv 146097
  let doe := z.emod 146097
  let yoe := (doe - doe.ediv 1460 + doe.ediv 36524 - doe.ediv 146096).ediv 365
  let y := yoe + era * 400
  let doy := doe - (365 * yoe + yoe.ediv 4 - yoe.ediv 100)
  let mp := (5 * doy + 2).ediv 153
  let m := mp + (if mp < 10 then 3 else -9)
  (if m ≤ 2 then y + 1 else y, m)

/-- Embedding of the profile NetCDF dataset as seen by the converter. -/
structure ProfDataset where
  nProf : ℕ
  nLevels : ℕ
  platformNumber : Option (List String)
  cycles : Option (List (Option ℤ))
  juld : Option (List (Option ℤ))
  lats : Option (List (Option ℚ))
  lons : Option (List (Option ℚ))
  pres : Option (List (List (Option ℚ)))
  pres_qc : Option (List (List (Option String)))
  temp : Option (List (List (Option ℚ)))
  temp_qc : Option (List (List (Option String)))
  psal : Option (List (List (Option ℚ)))
  psal_qc : Option (List (List (Option String)))
  pres_adj : Option (List (List (Option ℚ)))
  temp_adj : Option (List (List (Option ℚ)))
  psal_adj : Option (List (List (Option ℚ)))
  temp_adj_qc : Option (List (List (Option String)))
  psal_adj_qc : Option (List (List (Option String)))
  data_mode : Option (List (Option String))
  position_qc : Option (List (Option String))
  oxygen : Option (List (List (Option ℚ)))
  oxygen_qc : Option (List (List (Option String)))
  chlorophyll : Option (List (List (Option ℚ)))
  chlorophyll_qc : Option (List (List (Option String)))
  nitrate : Option (List (List (Option ℚ)))
  nitrate_qc : Option (List (List (Option String)))
deriving DecidableEq, Repr

/-- Embedding of the `get_value` helper for numeric 2D arrays: absent
array, out-of-range index, or NaN cell all yield `none`. -/
def get_value (arr : Option (List (List (Option ℚ)))) (i j : ℕ) : Option ℚ :=
  match arr with
  | none => none
  | some a =>
    match a[i]? with
    | none => none
    | some row =>
      match row[j]? with
      | none => none
      | some v => v

/-- Embedding of `get_value` for character/QC 2D arrays (cells are the
decoded, stripped strings). -/
def get_value_s (arr : Option (List (List (Option String)))) (i j : ℕ) :
    Option String :=
  match arr with
  | none => none
  | some a =>
    match a[i]? with
    | none => none
    | some row =>
      match row[j]? with
      | none => none
      | some v => v

/-- Embedding of the `get_1d_value` helper. -/
def get_1d_value {α : Type} (arr : Option (List (Option α))) (i : ℕ) :
    Option α :=
  match arr with
  | none => none
  | some a =>
    match a[i]? with
    | none => none
    | some v => v

/-- One output row of the converter (the dict built in the level loop,
fields in dict order). -/
structure ProfileRow where
  float_id : ℤ
  cycle_number : Option ℤ
  level : ℕ
  profile_timestamp : Option ℤ
  latitude : Option ℚ
  longitude : Option ℚ
  pressure : Option ℚ
  temperature : Option ℚ
  salinity : Option ℚ
  position_qc : Option String
  pres_qc : Option String
  temp_qc : Option String
  psal_qc : Option String
  temperature_adj : Option ℚ
  salinity_adj : Option ℚ
  pressure_adj : Option ℚ
  temp_adj_qc : Option String
  psal_adj_qc : Option String
  data_mode : Option String
  oxygen : Option ℚ
  oxygen_qc : Option String
  chlorophyll : Option ℚ
  chlorophyll_qc : Option String
  nitrate : Option ℚ
  nitrate_qc : Option String
  year : Option ℤ
  month : Option ℤ
deriving DecidableEq, Repr

/-- The five arrays the converter reads with direct `ds[...]` access
(missing variables raise there). -/
structure RequiredArrays where
  floatIds : List String
  cycles : List (Option ℤ)
  juldays : List (Option ℤ)
  lats : List (Option ℚ)
  lons : List (Option ℚ)
deriving DecidableEq, Repr

/-- The row dict built for one valid (profile, level) pair. -/
def mkProfileRow (ds : ProfDataset) (float_int : ℤ) (cycle_num : Option ℤ)
    (profile_timestamp : Option ℤ) (lat lon : Option ℚ)
    (mode_char pos_qc_char : Option String) (year month : Option ℤ)
    (i level_idx : ℕ) (pres_val : ℚ) : ProfileRow :=
  { float_id := float_int
    cycle_number := cycle_num
    level := level_idx
    profile_timestamp := profile_timestamp
    latitude := lat
    longitude := lon
    pressure := some pres_val
    temperature := get_value ds.temp i level_idx
    salinity := get_value ds.psal i level_idx
    position_qc := pos_qc_char
    pres_qc := get_value_s ds.pres_qc i level_idx
    temp_qc := get_value_s ds.temp_qc i level_idx
    psal_qc := get_value_s ds.psal_qc i level_idx
    temperature_adj := get_value ds.temp_adj i level_idx
    salinity_adj := get_value ds.psal_adj i level_idx
    pressure_adj := get_value ds.pres_adj i level_idx
    temp_adj_qc := get_value_s ds.temp_adj_qc i level_idx
    psal_adj_qc := get_value_s ds.psal_adj_qc i level_idx
    data_mode := mode_char
    oxygen := get_value ds.oxygen i level_idx
    oxygen_qc := get_value_s ds.oxygen_qc i level_idx
    chlorophyll := get_value ds.chlorophyll i level_idx
    chlorophyll_qc := get_value_s ds.chlorophyll_qc i level_idx
    nitrate := get_value ds.nitrate i level_idx
    nitrate_qc := get_value_s ds.nitrate_qc i level_idx
    year := year
    month := month }

/-- Rows of one profile (converter.py lines 126-199): the raw float-id
cell is read with direct indexing (out of range raises, modelled by
`none`), the per-profile scalars are read best-effort, and one row is
emitted per depth level whose pressure is present. A failing
`int(float(...))` parse raises through the enclosing try, modelled by
`none`. -/
def profileRows (fid : String) (ds : ProfDataset) (req : RequiredArrays)
    (i : ℕ) : Option (List ProfileRow) :=
  match req.floatIds[i]? with
  | none => none
  | some raw =>
    let float_str := pyStrip raw
    match (if float_str = "" then pyParseInt fid else pyParseInt float_str) with
    | none => none
    | some float_int =>
      let cycle_num := get_1d_value (some req.cycles) i
      let lat := get_1d_value (some req.lats) i
      let lon := get_1d_value (some req.lons) i
      let profile_timestamp :=
        match req.juldays[i]? with
        | some (some t) => some t
        | _ => none
      let year := profile_timestamp.map (fun t => (civilYearMonth t).1)
      let month := profile_timestamp.map (fun t => (civilYearMonth t).2)
      let mode_char := get_1d_value ds.data_mode i
      let pos_qc_char := get_1d_value ds.position_qc i
      some ((List.range ds.nLevels).filterMap (fun level_idx =>
        match get_value ds.pres i level_idx with
        | none => none
        | some pres_val =>
          some (mkProfileRow ds float_int cycle_num profile_timestamp lat
            lon mode_char pos_qc_char year month i level_idx pres_val)))

/-- The outer profile loop with failure propagation. -/
def rowsForProfiles (fid : String) (ds : ProfDataset) (req : RequiredArrays) :
    List ℕ → Option (List ProfileRow)
  | [] => some []
  | i :: rest =>
    match profileRows fid ds req i with
    | none => none
    | some rs =>
      match rowsForProfiles fid ds req rest with
      | none => none
      | some more => some (rs ++ more)

/-- Embedding of `ParquetConverter.convert`: empty dimensions, a missing
required array, a raise inside the loop, or zero produced rows all yield
`none`; otherwise the row list is returned (the Parquet write itself is
outside the model). -/
def convert (fid : String) (ds : ProfDataset) : Option (List ProfileRow) :=
  if ds.nProf = 0 ∨ ds.nLevels = 0 then none
  else
    match ds.platformNumber, ds.cycles, ds.juld, ds.lats, ds.lons with
    | some floatIds, some cycles, some juldays, some lats, some lons =>
      match rowsForProfiles fid ds ⟨floatIds, cycles, juldays, lats, lons⟩
          (List.range ds.nProf) with
      | none => none
      | some rows => if rows.isEmpty then none else some rows
    | _, _, _, _, _ => none

/-- Number of (profile, level) pairs whose pressure cell is present. -/
def validPressureCount (ds : ProfDataset) : ℕ :=
  ((List.range ds.nProf).map (fun i =>
    ((List.range ds.nLevels).filter
      (fun j => (get_value ds.pres i j).isSome)).length)).sum

lemma length_filterMap_isSome {α β : Type} (g : α → Option β) (l : List α) :
    (l.filterMap g).length = (l.filter (fun a => (g a).isSome)).length := by
  induction l with
  | nil => rfl
  | cons a rest ih =>
    rw [List.filterMap_cons, List.filter_cons]
    cases hg : g a with
    | none => simpa [hg] using ih
    | some b => simpa [hg] using ih

lemma profileRows_spec (fid : String) (ds : ProfDataset)
    (req : RequiredArrays) (i : ℕ) (rs : List ProfileRow)
    (h : profileRows fid ds req i = some rs) :
    (∀ r ∈ rs, r.pressure.isSome = true) ∧
    rs.length = ((List.range ds.nLevels).filter
      (fun j => (get_value ds.pres i j).isSome)).length := by
  rcases hid : req.floatIds[i]? with _ | raw
  · simp [profileRows, hid] at h
  rcases hparse : (if pyStrip raw = "" then pyParseInt fid
      else pyParseInt (pyStrip raw)) with _ | float_int
  · simp [profileRows, hid, hparse] at h
  simp only [profileRows, hid, hparse] at h
  have hrs := Option.some.inj h
  subst hrs
  constructor
  · intro r hr
    obtain ⟨j, _, hf⟩ := List.mem_filterMap.mp hr
    rcases hgv : get_value ds.pres i j with _ | p
    · rw [hgv] at hf; exact Option.noConfusion hf
    · rw [hgv] at hf
      have := Option.some.inj hf
      rw [← this]
      rfl
  · rw [length_filterMap_isSome]
    congr 1
    apply List.filter_congr
    intro j _
    rcases hgv : get_value ds.pres i j with _ | p <;> simp [hgv]

lemma rowsForProfiles_spec (fid : String) (ds : ProfDataset)
    (req : RequiredArrays) (is : List ℕ) (rows : List ProfileRow)
    (h : rowsForProfiles fid ds req is = some rows) :
    (∀ r ∈ rows, r.pressure.isSome = true) ∧
    rows.length = (is.map (fun i =>
      ((List.range ds.nLevels).filter
        (fun j => (get_value ds.pres i j).isSome)).length)).sum := by
  induction is generalizing rows with
  | nil =>
    have : rows = [] := (Option.some.inj h).symm
    subst this
    exact ⟨by intro r hr; exact absurd hr (List.not_mem_nil r), rfl⟩
  | cons i rest ih =>
    rcases hpr : profileRows fid ds req i with _ | rs
    · simp [rowsForProfiles, hpr] at h
    rcases hrest : rowsForProfiles fid ds req rest with _ | more
    · simp [rowsForProfiles, hpr, hrest] at h
    simp only [rowsForProfiles, hpr, hrest] at h
    have hrows := Option.some.inj h
    subst hrows
    obtain ⟨hp1, hp2⟩ := profileRows_spec fid ds req i rs hpr
    obtain ⟨hm1, hm2⟩ := ih more hrest
    constructor
    · intro r hr
      rcases List.mem_append.mp hr with hr | hr
      · exact hp1 r hr
      · exact hm1 r hr
    · rw [List.length_append, hp2, hm2, List.map_cons, List.sum_cons]

/-- C3: whenever the converter succeeds, every emitted row has a present
pressure, the number of rows equals the number of (profile, level) pairs
whose pressure cell is present (one row per such pair, none otherwise),
and in particular a file with N_PROF = 2, N_LEVELS = 5 and all ten
pressures valid yields exactly 10 rows. -/
theorem convert_pressure_rows (fid : String) (ds : ProfDataset)
    (rows : List ProfileRow) (h : convert fid ds = some rows) :
    (∀ r ∈ rows, r.pressure.isSome = true) ∧
    rows.length = validPressureCount ds ∧
    (ds.nProf = 2 → ds.nLevels = 5 →
      (∀ i < 2, ∀ j < 5, (get_value ds.pres i j).isSome = true) →
      rows.length = 10) := by
  by_cases hdim : ds.nProf = 0 ∨ ds.nLevels = 0
  · simp [convert, hdim] at h
  rcases h1 : ds.platformNumber with _ | floatIds
  · simp [convert, hdim, h1] at h
  rcases h2 : ds.cycles with _ | cycles
  · simp [convert, hdim, h1, h2] at h
  rcases h3 : ds.juld with _ | juldays
  · simp [convert, hdim, h1, h2, h3] at h
  rcases h4 : ds.lats with _ | lats
  · simp [convert, hdim, h1, h2, h3, h4] at h
  rcases h5 : ds.lons with _ | lons
  · simp [convert, hdim, h1, h2, h3, h4, h5] at h
  rcases h6 : rowsForProfiles fid ds ⟨floatIds, cycles, juldays, lats, lons⟩
      (List.range ds.nProf) with _ | rows0
  · simp [convert, hdim, h1, h2, h3, h4, h5, h6] at h
  simp only [convert, hdim, h1, h2, h3, h4, h5, h6] at h
  by_cases hemp : rows0.isEmpty = true
  · rw [if_pos hemp] at h; exact Option.noConfusion h
  rw [if_neg hemp] at h
  have hrows := Option.some.inj h
  subst hrows
  obtain ⟨ha, hb⟩ := rowsForProfiles_spec fid ds
    ⟨floatIds, cycles, juldays, lats, lons⟩ (List.range ds.nProf) rows0 h6
  refine ⟨ha, hb, ?_⟩
  intro hn hl hall
  rw [hb]
  rw [hn, hl]
  have hconst : ∀ i ∈ List.range 2,
      ((List.range 5).filter (fun j => (get_value ds.pres i j).isSome)).length
        = (5 : ℕ) := by
    intro i hi
    have hi2 := List.mem_range.mp hi
    rw [List.filter_eq_self.mpr]
    · exact List.length_range 5
    · intro j hj
      exact hall i hi2 j (List.mem_range.mp hj)
  rw [List.map_congr_left hconst]
  rfl

/-- C3 witness: a concrete two-profile, five-level dataset with all
pressures present yields exactly ten rows, each with a present
pressure. -/
theorem convert_pressure_rows_witness :
    ((convert "2902224"
      ⟨2, 5, some ["2902224", "2902224"], some [some 1, some 2],
        some [some 0, some 86400], some [some 1, some 2],
        some [some 3, some 4],
        some [[some 1, some 2, some 3, some 4, some 5],
          [some 6, some 7, some 8, some 9, some 10]],
        none, none, none, none, none, none, none, none, none, none,
        none, none, none, none, none, none, none, none⟩).getD []).length
      = 10 ∧
    ((convert "2902224"
      ⟨2, 5, some ["2902224", "2902224"], some [some 1, some 2],
        some [some 0, some 86400], some [some 1, some 2],
        some [some 3, some 4],
        some [[some 1, some 2, some 3, some 4, some 5],
          [some 6, some 7, some 8, some 9, some 10]],
        none, none, none, none, none, none, none, none, none, none,
        none, none, none, none, none, none, none, none⟩).getD []).all
      (fun r => r.pressure.isSome) = true := by
  have hsome : (convert "2902224"
      ⟨2, 5, some ["2902224", "2902224"], some [some 1, some 2],
        some [some 0, some 86400], some [some 1, some 2],
        some [some 3, some 4],
        some [[some 1, some 2, some 3, some 4, some 5],
          [some 6, some 7, some 8, some 9, some 10]],
        none, none, none, none, none, none, none, none, none, none,
        none, none, none, none, none, none, none, none⟩).isSome = true := by
    decide
  obtain ⟨rows, hr⟩ := Option.isSome_iff_exists.mp hsome
  have hc := convert_pressure_rows "2902224" _ rows hr
  rw [hr]
  simp only [Option.getD_some]
  refine ⟨hc.2.2 rfl rfl (by decide), ?_⟩
  rw [List.all_eq_true]
  intro r hrr
  exact hc.1 r hrr

end LogPose
